import Mathlib

/-!
Verification development for the `2004_titanic` tutorial notebooks
(hsma5/7d_introduction_to_neural_networks).

The notebooks are linear scripts over numpy/pandas/sklearn.  We embed the
repository-authored computations shallowly:

* numpy numbers become `ℚ` (all quantities appearing in the verified claims
  are ratios of small integer counts, which numpy represents exactly);
* a numpy true-division whose denominator is zero does not raise in Python:
  it emits a `RuntimeWarning` (globally suppressed in the notebooks via
  `warnings.filterwarnings("ignore")`) and produces a non-finite float
  (`inf` or `nan`).  We model a possibly-non-finite float as `Option ℚ`,
  with `none` standing for any non-finite value; arithmetic on `Option ℚ`
  propagates `none` exactly as float arithmetic propagates `nan`/`inf`
  through the metric formulas below (no non-finite value is ever fed back
  into a division or comparison by the notebook code);
* boolean numpy arrays become counts via `List.countP`, since the notebooks
  only ever sum or average them;
* the notebooks apply `calculate_accuracy` to equal-length arrays (numpy
  raises on a length mismatch); the embedding uses `List.zip`, which agrees
  with numpy on equal-length inputs.
-/

namespace Titanic

/-- Division of possibly-non-finite values: numpy `a / b` is non-finite
(`inf` or `nan`, modelled as `none`) when `b = 0` or when an operand is
already non-finite. -/
def oDiv : Option ℚ → Option ℚ → Option ℚ
  | some a, some b => if b = 0 then none else some (a / b)
  | _, _ => none

/-- Subtraction propagating non-finite operands. -/
def oSub : Option ℚ → Option ℚ → Option ℚ
  | some a, some b => some (a - b)
  | _, _ => none

/-- Addition propagating non-finite operands. -/
def oAdd : Option ℚ → Option ℚ → Option ℚ
  | some a, some b => some (a + b)
  | _, _ => none

/-- Multiplication propagating non-finite operands. -/
def oMul : Option ℚ → Option ℚ → Option ℚ
  | some a, some b => some (a * b)
  | _, _ => none

/-! ### Boolean-array counts used by `calculate_accuracy`

Source (notebook `06_roc_sensitivity_specificity.ipynb`):
```
observed_positives = observed == 1
observed_negatives = observed == 0
predicted_positives = predicted == 1
predicted_negatives = predicted == 0
true_positives = (predicted_positives == 1) & (observed_positives == 1)
false_positives = (predicted_positives == 1) & (observed_positives == 0)
true_negatives = (predicted_negatives == 1) & (observed_negatives == 1)
```
`np.sum` of a boolean array is the count of `True` entries; `np.mean` is
that count over the array length. -/

/-- Count of observed entries equal to 1 (`np.sum(observed == 1)`). -/
def obs_positives (observed : List ℚ) : ℕ :=
  observed.countP (fun x => decide (x = 1))

/-- Count of observed entries equal to 0 (`np.sum(observed == 0)`). -/
def obs_negatives (observed : List ℚ) : ℕ :=
  observed.countP (fun x => decide (x = 0))

/-- Count of predicted entries equal to 1 (`np.sum(predicted == 1)`). -/
def pred_positives (predicted : List ℚ) : ℕ :=
  predicted.countP (fun x => decide (x = 1))

/-- Count of predicted entries equal to 0 (`np.sum(predicted == 0)`). -/
def pred_negatives (predicted : List ℚ) : ℕ :=
  predicted.countP (fun x => decide (x = 0))

/-- Count of positions where `predicted == 1 & observed == 1`. -/
def true_positives (observed predicted : List ℚ) : ℕ :=
  (predicted.zip observed).countP (fun q => decide (q.1 = 1 ∧ q.2 = 1))

/-- Count of positions where `predicted == 1 & (observed == 1) == 0`,
i.e. predicted is 1 and observed is anything other than 1. -/
def false_positives (observed predicted : List ℚ) : ℕ :=
  (predicted.zip observed).countP (fun q => decide (q.1 = 1 ∧ ¬ q.2 = 1))

/-- Count of positions where `predicted == 0 & observed == 0`. -/
def true_negatives (observed predicted : List ℚ) : ℕ :=
  (predicted.zip observed).countP (fun q => decide (q.1 = 0 ∧ q.2 = 0))

/-- Count of positions where `predicted == observed`
(the summand of `np.mean(predicted == observed)`). -/
def matching (observed predicted : List ℚ) : ℕ :=
  (predicted.zip observed).countP (fun q => decide (q.1 = q.2))

/-! ### The individual metrics of `calculate_accuracy`, line by line -/

/-- `accuracy = np.mean(predicted == observed)`. -/
def accuracy (observed predicted : List ℚ) : Option ℚ :=
  oDiv (some (matching observed predicted : ℚ)) (some (observed.length : ℚ))

/-- `precision = np.sum(true_positives) / (np.sum(true_positives) + np.sum(false_positives))`. -/
def precision (observed predicted : List ℚ) : Option ℚ :=
  oDiv (some (true_positives observed predicted : ℚ))
    (some ((true_positives observed predicted : ℚ) +
      (false_positives observed predicted : ℚ)))

/-- `«recall» = np.sum(true_positives) / np.sum(observed_positives)`. -/
def «recall» (observed predicted : List ℚ) : Option ℚ :=
  oDiv (some (true_positives observed predicted : ℚ))
    (some (obs_positives observed : ℚ))

/-- `sensitivity = «recall»`. -/
def sensitivity (observed predicted : List ℚ) : Option ℚ :=
  «recall» observed predicted

/-- `f1 = 2 * ((precision * «recall») / (precision + «recall»))`. -/
def f1 (observed predicted : List ℚ) : Option ℚ :=
  oMul (some 2)
    (oDiv (oMul (precision observed predicted) («recall» observed predicted))
      (oAdd (precision observed predicted) («recall» observed predicted)))

/-- `specificity = np.sum(true_negatives) / np.sum(observed_negatives)`. -/
def specificity (observed predicted : List ℚ) : Option ℚ :=
  oDiv (some (true_negatives observed predicted : ℚ))
    (some (obs_negatives observed : ℚ))

/-- `positive_likelihood = sensitivity / (1 - specificity)`. -/
def positive_likelihood (observed predicted : List ℚ) : Option ℚ :=
  oDiv (sensitivity observed predicted)
    (oSub (some 1) (specificity observed predicted))

/-- `negative_likelihood = (1 - sensitivity) / specificity`. -/
def negative_likelihood (observed predicted : List ℚ) : Option ℚ :=
  oDiv (oSub (some 1) (sensitivity observed predicted))
    (specificity observed predicted)

/-- `false_positive_rate = 1 - specificity`. -/
def false_positive_rate (observed predicted : List ℚ) : Option ℚ :=
  oSub (some 1) (specificity observed predicted)

/-- `false_negative_rate = 1 - sensitivity`. -/
def false_negative_rate (observed predicted : List ℚ) : Option ℚ :=
  oSub (some 1) (sensitivity observed predicted)

/-- `positive_predictive_value = np.sum(true_positives) / np.sum(observed_positives)`.

Note: the source divides by the count of *observed* positives here (the same
denominator as `«recall»`), although its docstring describes the chance of a
true positive given a positive *prediction*. -/
def positive_predictive_value (observed predicted : List ℚ) : Option ℚ :=
  oDiv (some (true_positives observed predicted : ℚ))
    (some (obs_positives observed : ℚ))

/-- `negative_predictive_value = np.sum(true_negatives) / np.sum(observed_positives)`.

Note: the source divides by the count of observed *positives*, not by the
count of predicted negatives. -/
def negative_predictive_value (observed predicted : List ℚ) : Option ℚ :=
  oDiv (some (true_negatives observed predicted : ℚ))
    (some (obs_positives observed : ℚ))

/-- The results dictionary returned by `calculate_accuracy`. -/
structure AccuracyResults where
  observed_positive_rate : Option ℚ
  observed_negative_rate : Option ℚ
  predicted_positive_rate : Option ℚ
  predicted_negative_rate : Option ℚ
  accuracy : Option ℚ
  precision : Option ℚ
  «recall» : Option ℚ
  f1 : Option ℚ
  sensitivity : Option ℚ
  specificity : Option ℚ
  positive_likelihood : Option ℚ
  negative_likelihood : Option ℚ
  false_positive_rate : Option ℚ
  false_negative_rate : Option ℚ
  true_positive_rate : Option ℚ
  true_negative_rate : Option ℚ
  positive_predictive_value : Option ℚ
  negative_predictive_value : Option ℚ
  deriving DecidableEq

/-- `calculate_accuracy(observed, predicted)` from
`06_roc_sensitivity_specificity.ipynb`: computes every metric and returns
them in the results dictionary.  The `*_rate` entries are `np.mean` of the
corresponding boolean arrays; `true_positive_rate = sensitivity` and
`true_negative_rate = specificity` exactly as in the source. -/
def calculate_accuracy (observed predicted : List ℚ) : AccuracyResults where
  observed_positive_rate :=
    oDiv (some (obs_positives observed : ℚ)) (some (observed.length : ℚ))
  observed_negative_rate :=
    oDiv (some (obs_negatives observed : ℚ)) (some (observed.length : ℚ))
  predicted_positive_rate :=
    oDiv (some (pred_positives predicted : ℚ)) (some (predicted.length : ℚ))
  predicted_negative_rate :=
    oDiv (some (pred_negatives predicted : ℚ)) (some (predicted.length : ℚ))
  accuracy := accuracy observed predicted
  precision := precision observed predicted
  «recall» := «recall» observed predicted
  f1 := f1 observed predicted
  sensitivity := sensitivity observed predicted
  specificity := specificity observed predicted
  positive_likelihood := positive_likelihood observed predicted
  negative_likelihood := negative_likelihood observed predicted
  false_positive_rate := false_positive_rate observed predicted
  false_negative_rate := false_negative_rate observed predicted
  true_positive_rate := sensitivity observed predicted
  true_negative_rate := specificity observed predicted
  positive_predictive_value := positive_predictive_value observed predicted
  negative_predictive_value := negative_predictive_value observed predicted

/-! ### The manual ROC threshold sweep

Source:
```
thresholds = np.arange(0, 1.01, 0.01)
for cutoff in thresholds:
    predicted_survived = probability_survival >= cutoff
    accuracy = calculate_accuracy(y_test, predicted_survived)
    curve_fpr.append(accuracy['false_positive_rate'])
    curve_tpr.append(accuracy['true_positive_rate'])
```
Appending one element per loop iteration builds exactly the map of the body
over the threshold list, so the curves are embedded as `List.map`. -/

/-- `np.arange(start, stop, step)`: the `⌈(stop - start) / step⌉` values
`start + k * step`.  (For the arguments used in the notebook the number of
elements computed by numpy in floating point agrees with the exact rational
value `⌈1.01 / 0.01⌉ = 101`.) -/
def arange (start stop step : ℚ) : List ℚ :=
  (List.range (Int.ceil ((stop - start) / step)).toNat).map
    (fun k : ℕ => start + (k : ℚ) * step)

/-- `thresholds = np.arange(0, 1.01, 0.01)`. -/
def thresholds : List ℚ := arange 0 (101/100) (1/100)

/-- `predicted_survived = probability_survival >= cutoff`: the boolean
prediction array (as 0/1 rationals, matching numpy's coercion of booleans
when `calculate_accuracy` compares them with `0` and `1`). -/
def predicted_survived (probability_survival : List ℚ) (cutoff : ℚ) : List ℚ :=
  probability_survival.map (fun p => if cutoff ≤ p then 1 else 0)

/-- `curve_fpr` after the sweep loop: the `false_positive_rate` of
`calculate_accuracy(y_test, probability_survival >= cutoff)` for each
cutoff in `thresholds`, in threshold order. -/
def curve_fpr (probability_survival y_test : List ℚ) : List (Option ℚ) :=
  thresholds.map (fun cutoff =>
    (calculate_accuracy y_test
      (predicted_survived probability_survival cutoff)).false_positive_rate)

/-- `curve_tpr` after the sweep loop: the `true_positive_rate` at each
cutoff in `thresholds`, in threshold order. -/
def curve_tpr (probability_survival y_test : List ℚ) : List (Option ℚ) :=
  thresholds.map (fun cutoff =>
    (calculate_accuracy y_test
      (predicted_survived probability_survival cutoff)).true_positive_rate)

/-! ### `standardise_data` (notebooks 06 and the unnamed logistic-regression
notebook)

Source:
```
def standardise_data(X_train, X_test):
    sc = StandardScaler()
    sc.fit(X_train)
    train_std = sc.transform(X_train)
    test_std = sc.transform(X_test)
    return train_std, test_std
```
`StandardScaler` works column by column: `fit` records each training
column's mean and standard deviation (the square root of the population
variance), and `transform` maps an entry `x` of that column to
`(x - mean) / std`.  We embed one feature column.  A standard deviation is
an irrational square root in general, so the embedding passes the fitted
scale as an explicit value `scale` constrained (in the theorems) by
`scale ^ 2 = colVar X_train`. -/

/-- Mean of a column (`np.mean`). -/
def colMean (xs : List ℚ) : ℚ := xs.sum / (xs.length : ℚ)

/-- Population variance of a column (what `StandardScaler` computes;
`ddof = 0`). -/
def colVar (xs : List ℚ) : ℚ :=
  ((xs.map (fun x => (x - colMean xs) ^ 2)).sum) / (xs.length : ℚ)

/-- `sc.transform`: rescale every entry of a column by the fitted mean and
scale. -/
def scaler_transform (mean scale : ℚ) (xs : List ℚ) : List ℚ :=
  xs.map (fun x => (x - mean) / scale)

/-- `standardise_data(X_train, X_test)` on one feature column: both outputs
are rescaled with the statistics fitted on `X_train` alone. -/
def standardise_data (scale : ℚ) (X_train X_test : List ℚ) :
    List ℚ × List ℚ :=
  (scaler_transform (colMean X_train) scale X_train,
    scaler_transform (colMean X_train) scale X_test)

/-! ### Monte Carlo Dropout (second document in
`06_roc_sensitivity_specificity.ipynb`)

Source:
```
num_estimates = 100
y_probas_dropout = np.stack(
    [model(X_test_sc, training=True) for sample in range (num_estimates)])
y_proba_dropout = y_probas_dropout.mean(axis=0)
y_predict_dropout = y_proba_dropout >= 0.5
y_error = y_probas_dropout.std(axis=0)/np.sqrt(num_estimates)
```
The fitted network with dropout active is a stochastic function; each
forward pass is abstracted as `netPass sample`, the list of survival
probabilities over the test cases produced by the `sample`-th pass.
`np.sqrt(num_estimates) = np.sqrt(100) = 10` is exact, so `Nat.sqrt`
embeds it; the per-case standard deviation is irrational in general and is
passed as `netStd` constrained by `netStd j ^ 2 = varAxis0 ... j`. -/

/-- `num_estimates = 100`. -/
def num_estimates : ℕ := 100

/-- `np.stack([model(X_test_sc, training=True) for sample in range(num_estimates)])`. -/
def y_probas_dropout (netPass : ℕ → List ℚ) : List (List ℚ) :=
  (List.range num_estimates).map (fun sample => netPass sample)

/-- `.mean(axis=0)` at case `j`: the mean over the stacked rows of their
`j`-th entries. -/
def meanAxis0 (rows : List (List ℚ)) (j : ℕ) : ℚ :=
  ((rows.map (fun r => r.getD j 0)).sum) / (rows.length : ℚ)

/-- `.std(axis=0) ^ 2` at case `j`: the population variance over the
stacked rows of their `j`-th entries. -/
def varAxis0 (rows : List (List ℚ)) (j : ℕ) : ℚ :=
  ((rows.map (fun r => (r.getD j 0 - meanAxis0 rows j) ^ 2)).sum) /
    (rows.length : ℚ)

/-- `y_proba_dropout = y_probas_dropout.mean(axis=0)`. -/
def y_proba_dropout (netPass : ℕ → List ℚ) (j : ℕ) : ℚ :=
  meanAxis0 (y_probas_dropout netPass) j

/-- `y_predict_dropout = y_proba_dropout >= 0.5`. -/
def y_predict_dropout (netPass : ℕ → List ℚ) (j : ℕ) : Bool :=
  decide ((1 : ℚ)/2 ≤ y_proba_dropout netPass j)

/-- `y_error = y_probas_dropout.std(axis=0) / np.sqrt(num_estimates)`,
with the per-case standard deviation supplied as `netStd`. -/
def y_error (netStd : ℕ → ℚ) (j : ℕ) : ℚ :=
  netStd j / (Nat.sqrt num_estimates : ℚ)

/-! ### Greedy forward feature selection (`10_feature_expansion.ipynb`)

Source (abridged to the loop structure; the inner work of one candidate —
5 stratified folds, `standardise_data`, `LogisticRegression().fit`,
`np.mean(y_pred_test == y_test)` per fold — is delegated to sklearn and is
abstracted as `splitAcc features_to_use k`, the test accuracy of the
logistic-regression model trained on `features_to_use` for the `k`-th of
the `number_of_splits` stratified folds):
```
maximum_features_to_choose = 20
for i in range(maximum_features_to_choose):
    best_result = 0
    best_feature = ''
    for feature in available_features:
        features_to_use = chosen_features.copy()
        features_to_use.append(feature)
        ... 5 stratified k-fold fits ...
        feature_accuracy = np.mean(test_accuracy_results)
        if feature_accuracy > best_result:
            best_result = feature_accuracy
            best_feature = feature
    accuracy_by_feature_number.append(best_result)
    chosen_features.append(best_feature)
    available_features.remove(best_feature)
```
Python's `list.remove` deletes the first occurrence (raising if absent);
`List.erase` agrees whenever the element is present, which the theorems
establish under their hypotheses. -/

/-- `number_of_splits = 5`. -/
def number_of_splits : ℕ := 5

/-- `feature_accuracy = np.mean(test_accuracy_results)`: the mean of the
per-fold test accuracies over the `number_of_splits` stratified folds. -/
def feature_accuracy (splitAcc : List String → ℕ → ℚ)
    (features_to_use : List String) : ℚ :=
  ((List.range number_of_splits).map
    (fun k => splitAcc features_to_use k)).sum / (number_of_splits : ℚ)

/-- `maximum_features_to_choose = 20`. -/
def maximum_features_to_choose : ℕ := 20

/-- Notebook-global state mutated by the selection loop. -/
structure SelectionState where
  accuracy_by_feature_number : List ℚ
  chosen_features : List String
  available_features : List String
  deriving DecidableEq

/-- The body of the inner loop: update the running best whenever
`feature_accuracy > best_result`. -/
def best_step (splitAcc : List String → ℕ → ℚ) (chosen_features : List String)
    (best : ℚ × String) (feature : String) : ℚ × String :=
  if best.1 < feature_accuracy splitAcc (chosen_features ++ [feature])
  then (feature_accuracy splitAcc (chosen_features ++ [feature]), feature)
  else best

/-- The inner `for feature in available_features` loop: starting from
`best_result = 0, best_feature = ''`, update whenever
`feature_accuracy > best_result`. -/
def best_search (splitAcc : List String → ℕ → ℚ)
    (chosen_features available_features : List String) : ℚ × String :=
  available_features.foldl (best_step splitAcc chosen_features) (0, "")

/-- One iteration of the outer loop: append the best accuracy and feature,
remove the feature from the available list. -/
def selection_step (splitAcc : List String → ℕ → ℚ)
    (s : SelectionState) : SelectionState :=
  { accuracy_by_feature_number :=
      s.accuracy_by_feature_number ++
        [(best_search splitAcc s.chosen_features s.available_features).1]
    chosen_features :=
      s.chosen_features ++
        [(best_search splitAcc s.chosen_features s.available_features).2]
    available_features :=
      s.available_features.erase
        (best_search splitAcc s.chosen_features s.available_features).2 }

/-- The state after `n` iterations of the outer loop, started from empty
accuracy and chosen lists and the full available list. -/
def forward_selection_iter (splitAcc : List String → ℕ → ℚ)
    (available0 : List String) (n : ℕ) : SelectionState :=
  (List.range n).foldl (fun s _ => selection_step splitAcc s)
    ⟨[], [], available0⟩

/-- The state after the full `for i in range(maximum_features_to_choose)`
loop. -/
def forward_selection (splitAcc : List String → ℕ → ℚ)
    (available0 : List String) : SelectionState :=
  forward_selection_iter splitAcc available0 maximum_features_to_choose

/-! ### The data-download cell (both unnamed notebooks and the Monte
Carlo Dropout document)

Source:
```
download_required = True
if download_required:
    address = 'https://raw.githubusercontent.com/MichaelAllen1966/' + \
                '1804_python_healthcare/master/titanic/data/processed_data.csv'
    data = pd.read_csv(address)
    data_directory = './data/'   # (the cell also does: i\x6dport os)
    if not os.path.exists(data_directory):
        os.makedirs(data_directory)
    data.to_csv(data_directory + 'processed_data.csv', index=False)
```
The step's externally visible effects are one HTTP GET (`pd.read_csv` of a
URL) and the filesystem changes.  The filesystem is a list of directories
and a list of (path, contents) files, newest first; `fetch` abstracts the
GET composed with the csv round-trip through the dataframe. -/

/-- Abstract filesystem state: directories and files (newest entry
first; a lookup reads the newest entry for a path). -/
structure FileSystem where
  dirs : List String
  files : List (String × String)
  deriving DecidableEq

/-- Contents of the file at `path`, if any. -/
def fileContent (fs : FileSystem) (path : String) : Option String :=
  (fs.files.find? (fun pc => pc.1 == path)).map (fun pc => pc.2)

/-- Writing a file: the new entry shadows any older entry at that path. -/
def write_file (fs : FileSystem) (path content : String) : FileSystem :=
  { fs with files := (path, content) :: fs.files }

/-- The fixed URL the CSV is fetched from. -/
def address : String :=
  "https://raw.githubusercontent.com/MichaelAllen1966/" ++
    "1804_python_healthcare/master/titanic/data/processed_data.csv"

/-- `data_directory = './data/'`. -/
def data_directory : String := "./data/"

/-- The download cell: its resulting filesystem and the list of HTTP GET
requests it performs. -/
def download_cell (download_required : Bool) (fetch : String → String)
    (fs : FileSystem) : FileSystem × List String :=
  if download_required then
    (write_file
      (if data_directory ∈ fs.dirs then fs
        else { fs with dirs := data_directory :: fs.dirs })
      (data_directory ++ "processed_data.csv") (fetch address),
      [address])
  else (fs, [])

/-! ## Theorems -/

/-- `oDiv` with a nonzero denominator is ordinary division. -/
theorem oDiv_of_ne_zero {a b : ℚ} (h : b ≠ 0) :
    oDiv (some a) (some b) = some (a / b) := by
  simp [oDiv, h]

/-- `oDiv` with a zero denominator is non-finite. -/
theorem oDiv_zero_den (a : ℚ) : oDiv (some a) (some 0) = none := by
  simp [oDiv]

/-- Division by a non-finite value is non-finite. -/
theorem oDiv_none_right (a : Option ℚ) : oDiv a none = none := by
  cases a <;> rfl

/-- Subtraction of a non-finite value is non-finite. -/
theorem oSub_none_right (a : Option ℚ) : oSub a none = none := by
  cases a <;> rfl

/-- A nonempty observed list has a nonzero rational length. -/
theorem length_cast_ne_zero {observed : List ℚ} (hne : observed ≠ []) :
    (observed.length : ℚ) ≠ 0 := by
  simpa [List.length_eq_zero] using hne

/-- C1: for equal-length, non-empty, 0/1-valued observed and predicted
arrays, `results['accuracy']` is the proportion of positions at which
predicted equals observed, and that value lies in `[0, 1]`. -/
theorem C1_accuracy_is_match_proportion (observed predicted : List ℚ)
    (hlen : predicted.length = observed.length) (hne : observed ≠ [])
    (_hobs : ∀ x ∈ observed, x = 0 ∨ x = 1)
    (_hpred : ∀ x ∈ predicted, x = 0 ∨ x = 1) :
    (calculate_accuracy observed predicted).accuracy
        = some ((matching observed predicted : ℚ) / (observed.length : ℚ)) ∧
    ∀ q : ℚ, (calculate_accuracy observed predicted).accuracy = some q →
      0 ≤ q ∧ q ≤ 1 := by
  have hn : (observed.length : ℚ) ≠ 0 := length_cast_ne_zero hne
  have hval : (calculate_accuracy observed predicted).accuracy
      = some ((matching observed predicted : ℚ) / (observed.length : ℚ)) := by
    show accuracy observed predicted = _
    rw [accuracy, oDiv_of_ne_zero hn]
  refine ⟨hval, ?_⟩
  intro q hq
  rw [hval] at hq
  have hq' : q = (matching observed predicted : ℚ) / (observed.length : ℚ) :=
    (Option.some_injective ℚ hq).symm
  have hcount : matching observed predicted ≤ observed.length := by
    calc matching observed predicted
        ≤ (predicted.zip observed).length := List.countP_le_length _
      _ = observed.length := by rw [List.length_zip, hlen, min_self]
  have hpos : (0 : ℚ) < (observed.length : ℚ) :=
    lt_of_le_of_ne (Nat.cast_nonneg _) (Ne.symm hn)
  constructor
  · rw [hq']
    exact div_nonneg (Nat.cast_nonneg _) (Nat.cast_nonneg _)
  · rw [hq', div_le_one hpos]
    exact_mod_cast hcount

/-- C1 witness: a concrete instantiation of the accuracy theorem. -/
theorem C1_witness :
    (calculate_accuracy [1, 0] [1, 1]).accuracy
        = some ((matching [1, 0] [1, 1] : ℚ) / (([1, 0] : List ℚ).length : ℚ)) ∧
    ∀ q : ℚ, (calculate_accuracy [1, 0] [1, 1]).accuracy = some q →
      0 ≤ q ∧ q ≤ 1 :=
  C1_accuracy_is_match_proportion [1, 0] [1, 1] rfl (by simp)
    (by norm_num) (by norm_num)

/-- C6: the returned `positive_predictive_value` coincides with the
returned `recall` — both are the count of true positives divided by the
count of observed positives — although the docstring describes positive
predictive value as true positives over *predicted* positives. -/
theorem C6_ppv_equals_recall (observed predicted : List ℚ) :
    (calculate_accuracy observed predicted).positive_predictive_value
        = (calculate_accuracy observed predicted).«recall» ∧
    (calculate_accuracy observed predicted).positive_predictive_value
        = (if obs_positives observed = 0 then none
            else some ((true_positives observed predicted : ℚ) /
              (obs_positives observed : ℚ))) := by
  refine ⟨rfl, ?_⟩
  show positive_predictive_value observed predicted = _
  by_cases h : obs_positives observed = 0
  · simp [positive_predictive_value, oDiv, h]
  · rw [positive_predictive_value,
      oDiv_of_ne_zero (by exact_mod_cast h), if_neg h]

/-- C7: the returned `negative_predictive_value` is the count of true
negatives divided by the count of *observed positives* (not by the count of
predicted negatives), and on a concrete input with an observed positive it
exceeds 1 (and differs from true negatives over predicted negatives). -/
theorem C7_npv_divides_by_observed_positives (observed predicted : List ℚ) :
    (calculate_accuracy observed predicted).negative_predictive_value
        = (if obs_positives observed = 0 then none
            else some ((true_negatives observed predicted : ℚ) /
              (obs_positives observed : ℚ))) ∧
    ∃ obs pred : List ℚ, 0 < obs_positives obs ∧
      ∃ q : ℚ,
        (calculate_accuracy obs pred).negative_predictive_value = some q ∧
        1 < q ∧
        q ≠ (true_negatives obs pred : ℚ) / (pred_negatives pred : ℚ) := by
  constructor
  · show negative_predictive_value observed predicted = _
    by_cases h : obs_positives observed = 0
    · simp [negative_predictive_value, oDiv, h]
    · rw [negative_predictive_value,
        oDiv_of_ne_zero (by exact_mod_cast h), if_neg h]
  · refine ⟨[1, 0, 0, 0], [1, 1, 0, 0], by decide, 2, ?_, by norm_num, ?_⟩
    · show negative_predictive_value [1, 0, 0, 0] [1, 1, 0, 0] = some 2
      rw [negative_predictive_value,
        show true_negatives [1, 0, 0, 0] [1, 1, 0, 0] = 2 from rfl,
        show obs_positives [1, 0, 0, 0] = 1 from rfl]
      rw [oDiv_of_ne_zero (by norm_num)]
      norm_num
    · rw [show true_negatives [1, 0, 0, 0] [1, 1, 0, 0] = 2 from rfl,
        show pred_negatives [1, 1, 0, 0] = 2 from rfl]
      norm_num

/-- C4 counterexample: with no observed negatives (`observed = [1, 1]`),
the divisions by zero inside `calculate_accuracy` do **not** halt the
computation.  numpy true-division of a zero denominator only emits a
`RuntimeWarning` (suppressed by the notebooks) and yields a non-finite
value, so the function still returns its results dictionary: the degenerate
entries (`specificity`, `negative_likelihood`, ...) are non-finite (`none`)
while the remaining metrics (`accuracy`, `recall`, ...) are still computed
and returned — contradicting the claim that an uncaught runtime error
halts the notebook. -/
theorem C4_counterexample :
    (calculate_accuracy [1, 1] [1, 0]).specificity = none ∧
    (calculate_accuracy [1, 1] [1, 0]).negative_likelihood = none ∧
    (calculate_accuracy [1, 1] [1, 0]).true_negative_rate = none ∧
    (calculate_accuracy [1, 1] [1, 0]).false_positive_rate = none ∧
    (calculate_accuracy [1, 1] [1, 0]).accuracy = some (1/2) ∧
    (calculate_accuracy [1, 1] [1, 0]).«recall» = some (1/2) := by
  have hspec : specificity [1, 1] [1, 0] = none := by
    rw [specificity, show obs_negatives [1, 1] = 0 from rfl]
    exact oDiv_zero_den _
  refine ⟨hspec, ?_, hspec, ?_, ?_, ?_⟩
  · show negative_likelihood [1, 1] [1, 0] = none
    rw [negative_likelihood, hspec, oDiv_none_right]
  · show false_positive_rate [1, 1] [1, 0] = none
    rw [false_positive_rate, hspec, oSub_none_right]
  · show accuracy [1, 1] [1, 0] = some (1/2)
    rw [accuracy, show matching [1, 1] [1, 0] = 1 from rfl]
    rw [oDiv_of_ne_zero (by norm_num)]
    norm_num
  · show «recall» [1, 1] [1, 0] = some (1/2)
    rw [«recall», show true_positives [1, 1] [1, 0] = 1 from rfl,
      show obs_positives [1, 1] = 2 from rfl]
    rw [oDiv_of_ne_zero (by norm_num)]
    norm_num

/-- C4 amended: when the observed array has no negative cases, the
divisions by zero make the specificity-derived entries non-finite (`none`,
i.e. numpy `inf`/`nan` after a suppressed warning) — they are neither
caught nor replaced by a numeric sentinel — but `calculate_accuracy`
still returns its results dictionary and execution continues (`accuracy`
is still produced); dually, with no observed positive cases the
recall-derived entries are non-finite. -/
theorem C4_amended_division_yields_nonfinite (observed predicted : List ℚ)
    (hne : observed ≠ []) (hnoneg : ∀ x ∈ observed, x ≠ 0) :
    (calculate_accuracy observed predicted).specificity = none ∧
    (calculate_accuracy observed predicted).negative_likelihood = none ∧
    (calculate_accuracy observed predicted).true_negative_rate = none ∧
    (calculate_accuracy observed predicted).false_positive_rate = none ∧
    (∃ q : ℚ, (calculate_accuracy observed predicted).accuracy = some q) ∧
    ∀ obs pred : List ℚ, (∀ x ∈ obs, x ≠ 1) →
      (calculate_accuracy obs pred).«recall» = none ∧
      (calculate_accuracy obs pred).f1 = none ∧
      (calculate_accuracy obs pred).positive_predictive_value = none ∧
      (calculate_accuracy obs pred).negative_predictive_value = none := by
  have hzero : obs_negatives observed = 0 := by
    rw [obs_negatives, List.countP_eq_zero]
    intro a ha
    simpa using hnoneg a ha
  have hspec : specificity observed predicted = none := by
    rw [specificity, hzero]
    exact oDiv_zero_den _
  refine ⟨hspec, ?_, hspec, ?_, ?_, ?_⟩
  · show negative_likelihood observed predicted = none
    rw [negative_likelihood, hspec, oDiv_none_right]
  · show false_positive_rate observed predicted = none
    rw [false_positive_rate, hspec, oSub_none_right]
  · refine ⟨(matching observed predicted : ℚ) / (observed.length : ℚ), ?_⟩
    show accuracy observed predicted = _
    rw [accuracy, oDiv_of_ne_zero (length_cast_ne_zero hne)]
  · intro obs pred hnopos
    have hzero' : obs_positives obs = 0 := by
      rw [obs_positives, List.countP_eq_zero]
      intro a ha
      simpa using hnopos a ha
    have hrec : «recall» obs pred = none := by
      rw [«recall», hzero']
      exact oDiv_zero_den _
    refine ⟨hrec, ?_, ?_, ?_⟩
    · show f1 obs pred = none
      rw [f1, hrec]
      cases precision obs pred <;> rfl
    · show positive_predictive_value obs pred = none
      rw [positive_predictive_value, hzero']
      exact oDiv_zero_den _
    · show negative_predictive_value obs pred = none
      rw [negative_predictive_value, hzero']
      exact oDiv_zero_den _

/-- C4 witness: the amended theorem instantiated at `observed = [1, 1]`. -/
theorem C4_witness :
    (calculate_accuracy [1, 1] [1, 0]).negative_likelihood = none ∧
    (∃ q : ℚ, (calculate_accuracy [1, 1] [1, 0]).accuracy = some q) :=
  ⟨(C4_amended_division_yields_nonfinite [1, 1] [1, 0] (by simp)
      (by norm_num)).2.1,
    (C4_amended_division_yields_nonfinite [1, 1] [1, 0] (by simp)
      (by norm_num)).2.2.2.2.1⟩

/-- C8: with `download_required = True` the data-loading step performs a
single HTTP GET of the fixed URL, adds the `./data/` subfolder only when it
is not already present, writes exactly the file
`./data/processed_data.csv`, and touches no other filesystem path. -/
theorem C8_download_frame (fetch : String → String) (fs : FileSystem) :
    (download_cell true fetch fs).2 = [address] ∧
    fileContent (download_cell true fetch fs).1
        (data_directory ++ "processed_data.csv") = some (fetch address) ∧
    (∀ p : String, p ≠ data_directory ++ "processed_data.csv" →
      fileContent (download_cell true fetch fs).1 p = fileContent fs p) ∧
    (∀ d : String,
      d ∈ (download_cell true fetch fs).1.dirs ↔
        d ∈ fs.dirs ∨ d = data_directory) ∧
    (data_directory ∈ fs.dirs → (download_cell true fetch fs).1.dirs = fs.dirs) ∧
    download_cell false fetch fs = (fs, []) := by
  have hfiles : (download_cell true fetch fs).1.files
      = (data_directory ++ "processed_data.csv", fetch address) :: fs.files := by
    by_cases hdir : data_directory ∈ fs.dirs <;>
      simp [download_cell, write_file, hdir]
  have hdirs : (download_cell true fetch fs).1.dirs
      = if data_directory ∈ fs.dirs then fs.dirs
        else data_directory :: fs.dirs := by
    by_cases hdir : data_directory ∈ fs.dirs <;>
      simp [download_cell, write_file, hdir]
  refine ⟨rfl, ?_, ?_, ?_, ?_, rfl⟩
  · simp [fileContent, hfiles]
  · intro p hp
    have hfind : List.find? (fun pc => pc.1 == p)
        ((data_directory ++ "processed_data.csv", fetch address) :: fs.files)
        = List.find? (fun pc => pc.1 == p) fs.files :=
      List.find?_cons_of_neg _ (by simpa using Ne.symm hp)
    simp only [fileContent, hfiles, hfind]
  · intro d
    rw [hdirs]
    by_cases hdir : data_directory ∈ fs.dirs
    · rw [if_pos hdir]
      exact ⟨fun h => Or.inl h, fun h => h.elim id (fun he => he ▸ hdir)⟩
    · rw [if_neg hdir, List.mem_cons]
      tauto
  · intro hdir
    rw [hdirs, if_pos hdir]

/-- C8 witness: the frame theorem instantiated at a concrete filesystem. -/
theorem C8_witness :
    (download_cell true (fun u => u) ⟨[], []⟩).2 = [address] ∧
    fileContent (download_cell true (fun u => u) ⟨[], []⟩).1
        (data_directory ++ "processed_data.csv") = some address := by
  refine ⟨(C8_download_frame (fun u => u) ⟨[], []⟩).1, ?_⟩
  exact (C8_download_frame (fun u => u) ⟨[], []⟩).2.1

/-- C9: the Monte Carlo Dropout estimate stacks `num_estimates = 100`
forward passes of the dropout-active network; the per-case probability is
the arithmetic mean over the 100 passes; a case is classified as surviving
iff that mean is at least one half; and the reported uncertainty is the
per-case standard deviation across the passes divided by
`sqrt(num_estimates) = 10`. -/
theorem C9_monte_carlo_dropout (netPass : ℕ → List ℚ) (netStd : ℕ → ℚ)
    (hstd : ∀ j : ℕ, netStd j ^ 2 = varAxis0 (y_probas_dropout netPass) j) :
    num_estimates = 100 ∧
    (y_probas_dropout netPass).length = 100 ∧
    (∀ j : ℕ, y_proba_dropout netPass j =
      ((List.range 100).map (fun k => (netPass k).getD j 0)).sum / 100) ∧
    (∀ j : ℕ, y_predict_dropout netPass j = true ↔
      (1 : ℚ)/2 ≤ y_proba_dropout netPass j) ∧
    (∀ j : ℕ, (y_error netStd j) ^ 2 =
      varAxis0 (y_probas_dropout netPass) j / 100) := by
  refine ⟨rfl, by simp [y_probas_dropout, num_estimates], ?_, ?_, ?_⟩
  · intro j
    rw [y_proba_dropout, meanAxis0,
      show y_probas_dropout netPass = (List.range 100).map netPass from rfl,
      List.map_map,
      show ((fun r => r.getD j (0 : ℚ)) ∘ netPass)
          = (fun k => (netPass k).getD j 0) from rfl,
      List.length_map, List.length_range]
    norm_num
  · intro j
    simp [y_predict_dropout]
  · intro j
    rw [y_error, div_pow, hstd j]
    norm_num [num_estimates]

/-- C9 witness: one hundred empty passes with zero standard deviation. -/
theorem C9_witness :
    (y_probas_dropout (fun _ => [])).length = 100 ∧
    ∀ j : ℕ, (y_error (fun _ => (0 : ℚ)) j) ^ 2 =
      varAxis0 (y_probas_dropout (fun _ => [])) j / 100 := by
  have hzero : ∀ j : ℕ,
      varAxis0 (y_probas_dropout (fun _ => ([] : List ℚ))) j = 0 := by
    intro j
    have hmean : meanAxis0 (y_probas_dropout (fun _ => ([] : List ℚ))) j = 0 := by
      rw [meanAxis0]
      rw [List.sum_eq_zero]
      · simp
      · intro x hx
        rcases List.mem_map.1 hx with ⟨r, hr, hxr⟩
        rcases List.mem_map.1 hr with ⟨k, _, hkr⟩
        simp [← hkr] at hxr
        exact hxr.symm
    rw [varAxis0]
    rw [List.sum_eq_zero]
    · simp
    · intro x hx
      rcases List.mem_map.1 hx with ⟨r, hr, hxr⟩
      rcases List.mem_map.1 hr with ⟨k, _, hkr⟩
      rw [← hkr, hmean] at hxr
      simpa using hxr.symm
  have h := C9_monte_carlo_dropout (fun _ => []) (fun _ => 0)
    (by intro j; rw [hzero j]; norm_num)
  exact ⟨h.2.1, h.2.2.2.2⟩

/-- Sum of a centred, rescaled column. -/
theorem sum_map_center_div (xs : List ℚ) (c s : ℚ) :
    (xs.map (fun x => (x - c) / s)).sum
      = (xs.sum - (xs.length : ℚ) * c) / s := by
  induction xs with
  | nil => simp
  | cons a l ih =>
    rw [List.map_cons, List.sum_cons, ih, div_add_div_same, List.sum_cons,
      List.length_cons]
    congr 1
    push_cast
    ring

/-- Sum of squared centred, rescaled entries. -/
theorem sum_map_sq_center_div (xs : List ℚ) (c s : ℚ) :
    (xs.map (fun x => ((x - c) / s) ^ 2)).sum
      = (xs.map (fun x => (x - c) ^ 2)).sum / s ^ 2 := by
  induction xs with
  | nil => simp
  | cons a l ih =>
    rw [List.map_cons, List.sum_cons, ih, List.map_cons, List.sum_cons,
      div_pow, div_add_div_same]

/-- A column standardised with its own mean has mean zero. -/
theorem colMean_standardised (X_train : List ℚ) (scale : ℚ)
    (hne : X_train ≠ []) :
    colMean (scaler_transform (colMean X_train) scale X_train) = 0 := by
  have hn : (X_train.length : ℚ) ≠ 0 := length_cast_ne_zero hne
  have hnum : X_train.sum - (X_train.length : ℚ) * colMean X_train = 0 := by
    rw [colMean]
    field_simp
  rw [scaler_transform, colMean, sum_map_center_div, List.length_map, hnum]
  simp

/-- A column standardised with its own mean and a scale whose square is the
column variance has variance one. -/
theorem colVar_standardised (X_train : List ℚ) (scale : ℚ)
    (hne : X_train ≠ []) (hvar : scale ^ 2 = colVar X_train)
    (hs : scale ≠ 0) :
    colVar (scaler_transform (colMean X_train) scale X_train) = 1 := by
  have hn : (X_train.length : ℚ) ≠ 0 := length_cast_ne_zero hne
  have hA : (X_train.map (fun x => (x - colMean X_train) ^ 2)).sum ≠ 0 := by
    intro h0
    apply hs
    have : scale ^ 2 = 0 := by rw [hvar, colVar, h0, zero_div]
    exact pow_eq_zero_iff (n := 2) (by norm_num) |>.mp this
  rw [colVar, colMean_standardised X_train scale hne]
  rw [scaler_transform, List.map_map]
  rw [show ((fun x => (x - 0) ^ 2) ∘ fun x => (x - colMean X_train) / scale)
      = (fun x => ((x - colMean X_train) / scale) ^ 2) from by
    funext x
    simp]
  rw [sum_map_sq_center_div, List.length_map, div_div, hvar, colVar]
  rw [div_mul_cancel₀ _ hn]
  exact div_self hA

/-- C5: `standardise_data` fits the scaler on the training column only:
every output entry (train and test alike) is `(x - mean of X_train)`
divided by the standard deviation of `X_train` (passed as `scale` with
`scale ^ 2 = colVar X_train`, never a statistic of `X_test`), and the
standardised training column has zero mean and unit variance whenever the
training standard deviation is nonzero. -/
theorem C5_standardise_uses_train_statistics (scale : ℚ)
    (X_train X_test : List ℚ) (hne : X_train ≠ [])
    (hvar : scale ^ 2 = colVar X_train) (hs : scale ≠ 0) :
    (standardise_data scale X_train X_test).1
        = X_train.map (fun x => (x - colMean X_train) / scale) ∧
    (standardise_data scale X_train X_test).2
        = X_test.map (fun x => (x - colMean X_train) / scale) ∧
    colMean (standardise_data scale X_train X_test).1 = 0 ∧
    colVar (standardise_data scale X_train X_test).1 = 1 :=
  ⟨rfl, rfl, colMean_standardised X_train scale hne,
    colVar_standardised X_train scale hne hvar hs⟩

/-- C5 witness: training column `[0, 2]` has mean 1 and variance 1, so
`scale = 1`; the standardised training column is `[-1, 1]`. -/
theorem C5_witness :
    (standardise_data 1 [0, 2] [3]).1
        = ([0, 2] : List ℚ).map (fun x => (x - colMean [0, 2]) / 1) ∧
    colMean (standardise_data 1 [0, 2] [3]).1 = 0 ∧
    colVar (standardise_data 1 [0, 2] [3]).1 = 1 := by
  have h := C5_standardise_uses_train_statistics 1 [0, 2] [3] (by simp)
    (by norm_num [colVar, colMean]) one_ne_zero
  exact ⟨h.1, h.2.2.1, h.2.2.2⟩

/-- `np.arange(0, 1.01, 0.01)` is the ascending list `k / 100` for
`k = 0, ..., 100`. -/
theorem thresholds_eq :
    thresholds = (List.range 101).map (fun k : ℕ => (k : ℚ) / 100) := by
  rw [thresholds, arange,
    show ((101/100 - 0) / (1/100) : ℚ) = ((101 : ℤ) : ℚ) by norm_num,
    Int.ceil_intCast,
    show ((101 : ℤ)).toNat = 101 from rfl,
    show (fun k : ℕ => (0 : ℚ) + (k : ℚ) * (1/100))
        = (fun k : ℕ => (k : ℚ) / 100) from by
      funext k
      rw [zero_add, mul_one_div]]

/-- Indexing a mapped range. -/
theorem getD_map_range {α : Type} (n i : ℕ) (f : ℕ → α) (d : α)
    (h : i < n) : ((List.range n).map f).getD i d = f i := by
  rw [List.getD_eq_getElem?_getD, List.getElem?_map, List.getElem?_range h]
  rfl

/-- At cutoff 0 every case whose probability is nonnegative is predicted
positive, so the true positives are exactly the observed positives and
there are no true negatives. -/
theorem predicted_survived_zero_counts (probs : List ℚ) :
    ∀ y : List ℚ, (∀ p ∈ probs, 0 ≤ p) → probs.length = y.length →
    true_positives y (predicted_survived probs 0) = obs_positives y ∧
    true_negatives y (predicted_survived probs 0) = 0 := by
  induction probs with
  | nil =>
    intro y _ hlen
    cases y with
    | nil => exact ⟨rfl, rfl⟩
    | cons b ys => simp at hlen
  | cons p ps ih =>
    intro y hprob hlen
    cases y with
    | nil => simp at hlen
    | cons b ys =>
      have hp : (0 : ℚ) ≤ p := hprob p (List.mem_cons_self _ _)
      have hps : ∀ q ∈ ps, (0 : ℚ) ≤ q :=
        fun q hq => hprob q (List.mem_cons_of_mem _ hq)
      have hlen' : ps.length = ys.length := by simpa using hlen
      obtain ⟨ih1, ih2⟩ := ih ys hps hlen'
      have hcons : predicted_survived (p :: ps) 0
          = 1 :: predicted_survived ps 0 := by
        rw [predicted_survived, predicted_survived, List.map_cons, if_pos hp]
      constructor
      · rw [true_positives, hcons, List.zip_cons_cons, List.countP_cons]
        have ih1' : ((predicted_survived ps 0).zip ys).countP
            (fun q => decide (q.1 = 1 ∧ q.2 = 1))
            = ys.countP (fun x => decide (x = 1)) := ih1
        rw [ih1', obs_positives, List.countP_cons]
        simp
      · rw [true_negatives, hcons, List.zip_cons_cons, List.countP_cons]
        have ih2' : ((predicted_survived ps 0).zip ys).countP
            (fun q => decide (q.1 = 0 ∧ q.2 = 0)) = 0 := ih2
        rw [ih2']
        norm_num

/-- C2: the manual ROC sweep iterates over exactly the 101 thresholds
`0.00, 0.01, ..., 1.00` in ascending order, and at the `i`-th threshold it
appends to `curve_tpr` the true-positive rate (true positives over observed
positives) and to `curve_fpr` the false-positive rate
(`1 - true negatives / observed negatives`) of the classifier predicting
survival iff the survival probability is at least `i / 100`, evaluated
against `y_test`; both curves have exactly 101 entries in threshold
order. -/
theorem C2_roc_sweep (probs y : List ℚ)
    (hpos : 0 < obs_positives y) (hneg : 0 < obs_negatives y) :
    thresholds.length = 101 ∧
    (∀ i : ℕ, i < 101 → thresholds.getD i 0 = (i : ℚ) / 100) ∧
    (∀ i j : ℕ, i < j → j < 101 →
      thresholds.getD i 0 < thresholds.getD j 0) ∧
    (curve_tpr probs y).length = 101 ∧
    (curve_fpr probs y).length = 101 ∧
    ∀ i : ℕ, i < 101 →
      (curve_tpr probs y).getD i none
          = some ((true_positives y
                (predicted_survived probs ((i : ℚ) / 100)) : ℚ)
              / (obs_positives y : ℚ)) ∧
      (curve_fpr probs y).getD i none
          = some (1 - (true_negatives y
                (predicted_survived probs ((i : ℚ) / 100)) : ℚ)
              / (obs_negatives y : ℚ)) := by
  have hcp : ((obs_positives y : ℚ)) ≠ 0 := by
    exact_mod_cast Nat.pos_iff_ne_zero.mp hpos
  have hcn : ((obs_negatives y : ℚ)) ≠ 0 := by
    exact_mod_cast Nat.pos_iff_ne_zero.mp hneg
  have hgetD : ∀ i : ℕ, i < 101 → thresholds.getD i 0 = (i : ℚ) / 100 := by
    intro i hi
    rw [thresholds_eq]
    exact getD_map_range _ _ _ _ hi
  refine ⟨by rw [thresholds_eq]; simp, hgetD, ?_, ?_, ?_, ?_⟩
  · intro i j hij hj
    rw [hgetD i (hij.trans hj), hgetD j hj]
    rw [div_lt_div_iff_of_pos_right (by norm_num)]
    exact_mod_cast hij
  · rw [curve_tpr, thresholds_eq]
    simp
  · rw [curve_fpr, thresholds_eq]
    simp
  · intro i hi
    constructor
    · have h0 : (curve_tpr probs y).getD i none
          = (calculate_accuracy y
              (predicted_survived probs ((i : ℚ) / 100))).true_positive_rate := by
        rw [curve_tpr, thresholds_eq, List.map_map]
        exact getD_map_range _ _ _ _ hi
      rw [h0]
      show sensitivity y (predicted_survived probs ((i : ℚ) / 100)) = _
      rw [sensitivity, «recall», oDiv_of_ne_zero hcp]
    · have h0 : (curve_fpr probs y).getD i none
          = (calculate_accuracy y
              (predicted_survived probs ((i : ℚ) / 100))).false_positive_rate := by
        rw [curve_fpr, thresholds_eq, List.map_map]
        exact getD_map_range _ _ _ _ hi
      rw [h0]
      show false_positive_rate y (predicted_survived probs ((i : ℚ) / 100)) = _
      rw [false_positive_rate, specificity, oDiv_of_ne_zero hcn]
      rfl

/-- C2 witness: a concrete sweep over two test cases. -/
theorem C2_witness :
    thresholds.length = 101 ∧
    (curve_tpr [3/4, 1/4] [1, 0]).length = 101 ∧
    (curve_fpr [3/4, 1/4] [1, 0]).length = 101 :=
  ⟨(C2_roc_sweep [3/4, 1/4] [1, 0] (by decide) (by decide)).1,
    (C2_roc_sweep [3/4, 1/4] [1, 0] (by decide) (by decide)).2.2.2.1,
    (C2_roc_sweep [3/4, 1/4] [1, 0] (by decide) (by decide)).2.2.2.2.1⟩

/-- C10: provided `y_test` contains at least one observed positive and one
observed negative, the first point appended by the sweep (threshold 0,
where every nonnegative predicted probability classifies the case
positive) has true-positive rate 1 and false-positive rate 1. -/
theorem C10_first_roc_point (probs y : List ℚ)
    (hlen : probs.length = y.length) (hprob : ∀ p ∈ probs, 0 ≤ p)
    (hpos : 0 < obs_positives y) (hneg : 0 < obs_negatives y) :
    (curve_tpr probs y).head? = some (some 1) ∧
    (curve_fpr probs y).head? = some (some 1) := by
  obtain ⟨hTP, hTN⟩ := predicted_survived_zero_counts probs y hprob hlen
  have hcp : ((obs_positives y : ℚ)) ≠ 0 := by
    exact_mod_cast Nat.pos_iff_ne_zero.mp hpos
  have hcn : ((obs_negatives y : ℚ)) ≠ 0 := by
    exact_mod_cast Nat.pos_iff_ne_zero.mp hneg
  constructor
  · have h0 : (curve_tpr probs y).head?
        = some ((calculate_accuracy y
            (predicted_survived probs 0)).true_positive_rate) := by
      rw [curve_tpr, thresholds_eq, List.map_map, List.head?_eq_getElem?,
        List.getElem?_map, List.getElem?_range (by norm_num : (0:ℕ) < 101)]
      norm_num
    rw [h0]
    show some (sensitivity y (predicted_survived probs 0)) = _
    rw [sensitivity, «recall», hTP, oDiv_of_ne_zero hcp, div_self hcp]
  · have h0 : (curve_fpr probs y).head?
        = some ((calculate_accuracy y
            (predicted_survived probs 0)).false_positive_rate) := by
      rw [curve_fpr, thresholds_eq, List.map_map, List.head?_eq_getElem?,
        List.getElem?_map, List.getElem?_range (by norm_num : (0:ℕ) < 101)]
      norm_num
    rw [h0]
    show some (false_positive_rate y (predicted_survived probs 0)) = _
    rw [false_positive_rate, specificity, hTN, Nat.cast_zero,
      oDiv_of_ne_zero hcn, zero_div]
    show some (some ((1 : ℚ) - 0)) = _
    norm_num

/-- C10 witness: the first sweep point on a concrete two-case test set. -/
theorem C10_witness :
    (curve_tpr [3/4, 1/4] [1, 0]).head? = some (some 1) ∧
    (curve_fpr [3/4, 1/4] [1, 0]).head? = some (some 1) :=
  C10_first_roc_point [3/4, 1/4] [1, 0] rfl (by norm_num)
    (by decide) (by decide)

/-- Invariant of the inner selection loop: the running best only grows, it
dominates the accuracy of every candidate scanned so far, and it is either
still the initial pair or the accuracy of a scanned candidate. -/
theorem best_search_fold (splitAcc : List String → ℕ → ℚ)
    (chosen : List String) :
    ∀ (l : List String) (b0 : ℚ) (f0 : String),
      b0 ≤ (l.foldl (best_step splitAcc chosen) (b0, f0)).1 ∧
      (∀ f ∈ l, feature_accuracy splitAcc (chosen ++ [f])
          ≤ (l.foldl (best_step splitAcc chosen) (b0, f0)).1) ∧
      (l.foldl (best_step splitAcc chosen) (b0, f0) = (b0, f0) ∨
        ((l.foldl (best_step splitAcc chosen) (b0, f0)).2 ∈ l ∧
          (l.foldl (best_step splitAcc chosen) (b0, f0)).1
            = feature_accuracy splitAcc
                (chosen ++ [(l.foldl (best_step splitAcc chosen) (b0, f0)).2]))) := by
  intro l
  induction l with
  | nil =>
    intro b0 f0
    exact ⟨le_refl _, by simp, Or.inl rfl⟩
  | cons a t ih =>
    intro b0 f0
    rw [List.foldl_cons]
    by_cases hup : b0 < feature_accuracy splitAcc (chosen ++ [a])
    · have hstep : best_step splitAcc chosen (b0, f0) a
          = (feature_accuracy splitAcc (chosen ++ [a]), a) := by
        rw [best_step, if_pos hup]
      rw [hstep]
      obtain ⟨h1, h2, h3⟩ := ih (feature_accuracy splitAcc (chosen ++ [a])) a
      refine ⟨le_of_lt (lt_of_lt_of_le hup h1), ?_, ?_⟩
      · intro f hf
        rcases List.mem_cons.1 hf with hfa | hft
        · rw [hfa]
          exact h1
        · exact h2 f hft
      · rcases h3 with h3 | ⟨h3a, h3b⟩
        · right
          rw [h3]
          exact ⟨List.mem_cons_self _ _, rfl⟩
        · right
          exact ⟨List.mem_cons_of_mem _ h3a, h3b⟩
    · have hstep : best_step splitAcc chosen (b0, f0) a = (b0, f0) := by
        rw [best_step, if_neg hup]
      rw [hstep]
      obtain ⟨h1, h2, h3⟩ := ih b0 f0
      refine ⟨h1, ?_, ?_⟩
      · intro f hf
        rcases List.mem_cons.1 hf with hfa | hft
        · rw [hfa]
          exact le_trans (le_of_not_lt hup) h1
        · exact h2 f hft
      · rcases h3 with h3 | ⟨h3a, h3b⟩
        · exact Or.inl h3
        · exact Or.inr ⟨List.mem_cons_of_mem _ h3a, h3b⟩

/-- When the available list is nonempty and every accuracy is positive, the
inner loop returns a member of the available list, paired with its
accuracy, and that accuracy dominates every available candidate. -/
theorem best_search_spec (splitAcc : List String → ℕ → ℚ)
    (chosen avail : List String) (hne : avail ≠ [])
    (hpos : ∀ features : List String, 0 < feature_accuracy splitAcc features) :
    (best_search splitAcc chosen avail).2 ∈ avail ∧
    (best_search splitAcc chosen avail).1
      = feature_accuracy splitAcc
          (chosen ++ [(best_search splitAcc chosen avail).2]) ∧
    ∀ f ∈ avail, feature_accuracy splitAcc (chosen ++ [f])
      ≤ (best_search splitAcc chosen avail).1 := by
  have h := best_search_fold splitAcc chosen avail 0 ""
  rw [show avail.foldl (best_step splitAcc chosen) (0, "")
      = best_search splitAcc chosen avail from rfl] at h
  obtain ⟨_, h2, h3⟩ := h
  rcases h3 with h3 | ⟨h3a, h3b⟩
  · exfalso
    obtain ⟨a, ha⟩ := List.exists_mem_of_ne_nil avail hne
    have hle := h2 a ha
    rw [h3] at hle
    exact absurd hle (not_le.2 (hpos _))
  · exact ⟨h3a, h3b, h2⟩

/-- Unfolding one iteration of the outer loop. -/
theorem forward_selection_iter_succ (splitAcc : List String → ℕ → ℚ)
    (avail0 : List String) (n : ℕ) :
    forward_selection_iter splitAcc avail0 (n + 1)
      = selection_step splitAcc (forward_selection_iter splitAcc avail0 n) := by
  rw [forward_selection_iter, forward_selection_iter, List.range_succ,
    List.foldl_append]
  rfl

/-- Each outer iteration appends exactly one chosen feature and one
recorded accuracy. -/
theorem forward_selection_iter_lengths (splitAcc : List String → ℕ → ℚ)
    (avail0 : List String) (n : ℕ) :
    (forward_selection_iter splitAcc avail0 n).chosen_features.length = n ∧
    (forward_selection_iter splitAcc avail0 n).accuracy_by_feature_number.length = n := by
  induction n with
  | zero => exact ⟨rfl, rfl⟩
  | succ n ih =>
    rw [forward_selection_iter_succ, selection_step]
    simp [ih.1, ih.2]

/-- After `n ≤ |available|` iterations with positive accuracies, exactly
`n` features have been removed from the available list. -/
theorem forward_selection_available_length (splitAcc : List String → ℕ → ℚ)
    (avail0 : List String)
    (hpos : ∀ features : List String, 0 < feature_accuracy splitAcc features) :
    ∀ n : ℕ, n ≤ avail0.length →
      (forward_selection_iter splitAcc avail0 n).available_features.length
        = avail0.length - n := by
  intro n
  induction n with
  | zero =>
    intro _
    rfl
  | succ n ih =>
    intro hn
    have hn' : n ≤ avail0.length := Nat.le_of_succ_le hn
    have hlen := ih hn'
    have hne : (forward_selection_iter splitAcc avail0 n).available_features
        ≠ [] := by
      intro h0
      rw [h0] at hlen
      simp only [List.length_nil] at hlen
      omega
    obtain ⟨hmem, _, _⟩ := best_search_spec splitAcc
      (forward_selection_iter splitAcc avail0 n).chosen_features
      (forward_selection_iter splitAcc avail0 n).available_features hne hpos
    rw [forward_selection_iter_succ, selection_step]
    simp only [List.length_erase_of_mem hmem, hlen]
    omega

/-- C3: the greedy forward-selection loop runs exactly
`maximum_features_to_choose = 20` iterations; in each iteration the inner
loop scores every remaining available feature by the mean test accuracy
over the `number_of_splits = 5` stratified folds of the model fitted on
the chosen features plus that candidate (`feature_accuracy`, with the
per-fold fitting delegated to sklearn as `splitAcc`), and the iteration
appends the strictly-best candidate's accuracy to
`accuracy_by_feature_number`, appends the candidate to `chosen_features`,
and removes it from `available_features`. -/
theorem C3_forward_selection (splitAcc : List String → ℕ → ℚ)
    (avail0 : List String) (hlen : 20 ≤ avail0.length)
    (hpos : ∀ features : List String, 0 < feature_accuracy splitAcc features) :
    maximum_features_to_choose = 20 ∧
    number_of_splits = 5 ∧
    (forward_selection splitAcc avail0).chosen_features.length = 20 ∧
    (forward_selection splitAcc avail0).accuracy_by_feature_number.length = 20 ∧
    ∀ n : ℕ, n < 20 →
      let s := forward_selection_iter splitAcc avail0 n
      let b := best_search splitAcc s.chosen_features s.available_features
      b.2 ∈ s.available_features ∧
      b.1 = feature_accuracy splitAcc (s.chosen_features ++ [b.2]) ∧
      (∀ f ∈ s.available_features,
        feature_accuracy splitAcc (s.chosen_features ++ [f]) ≤ b.1) ∧
      forward_selection_iter splitAcc avail0 (n + 1)
        = { accuracy_by_feature_number := s.accuracy_by_feature_number ++ [b.1]
            chosen_features := s.chosen_features ++ [b.2]
            available_features := s.available_features.erase b.2 } := by
  refine ⟨rfl, rfl,
    (forward_selection_iter_lengths splitAcc avail0 20).1,
    (forward_selection_iter_lengths splitAcc avail0 20).2, ?_⟩
  intro n hn s b
  have hne : s.available_features ≠ [] := by
    have hlen2 := forward_selection_available_length splitAcc avail0 hpos n
      (le_trans (le_of_lt hn) hlen)
    intro h0
    rw [show s.available_features
        = (forward_selection_iter splitAcc avail0 n).available_features
      from rfl, h0] at hlen2
    simp only [List.length_nil] at hlen2
    omega
  obtain ⟨h1, h2, h3⟩ := best_search_spec splitAcc
    s.chosen_features s.available_features hne hpos
  exact ⟨h1, h2, h3, forward_selection_iter_succ splitAcc avail0 n⟩

/-- C3 witness: twenty features whose accuracy is constantly 1. -/
theorem C3_witness :
    (forward_selection (fun _ _ => (1 : ℚ))
      ["a", "b", "c", "d", "e", "f", "g", "h", "i", "j",
        "k", "l", "m", "n", "o", "p", "q", "r", "s", "t"]).chosen_features.length = 20 ∧
    (forward_selection (fun _ _ => (1 : ℚ))
      ["a", "b", "c", "d", "e", "f", "g", "h", "i", "j",
        "k", "l", "m", "n", "o", "p", "q", "r", "s", "t"]).accuracy_by_feature_number.length = 20 :=
  ⟨(C3_forward_selection (fun _ _ => (1 : ℚ))
      ["a", "b", "c", "d", "e", "f", "g", "h", "i", "j",
        "k", "l", "m", "n", "o", "p", "q", "r", "s", "t"]
      (by decide)
      (by
        intro features
        rw [feature_accuracy]
        norm_num [number_of_splits])).2.2.1,
    (C3_forward_selection (fun _ _ => (1 : ℚ))
      ["a", "b", "c", "d", "e", "f", "g", "h", "i", "j",
        "k", "l", "m", "n", "o", "p", "q", "r", "s", "t"]
      (by decide)
      (by
        intro features
        rw [feature_accuracy]
        norm_num [number_of_splits])).2.2.2.1⟩

end Titanic
